import Mathlib

/-!
Shallow embedding of the kvbencher workload execution engine
(src/workload.rs, src/generator.rs).

Modelling conventions:
- Machine integers (u64) are natural numbers reduced modulo 2^64 where the
  source relies on wrapping; byte values are naturals below 256.
- f64 percentages and durations are modelled as rationals; durations are in
  seconds, histogram samples in microseconds.
- Ambient randomness (the seeds obtained from rand::random, the uniform
  draws from rand::rng, and the measured latencies from Instant::elapsed)
  is passed in explicitly as oracle parameters, which is the standard
  shallow embedding of nondeterministic inputs.
- The external rand crate SmallRng is modelled as a deterministic stream
  seeded from a u64 (splitmix64 step function); the repository only relies
  on it being a deterministic seeded byte stream. The external rand_distr
  Zipf sampler is modelled as a deterministic draw in the interval from 1
  to n that advances the RNG state; no claim depends on the distribution
  shape, only on the state threading and determinism.
- Rust panics (assert, unreachable, Result::unwrap on Err) are modelled by
  the Outcome.crash constructor; Rust Err returns by Outcome.err.
-/

namespace KvBencher

/-- Width of a 64-bit machine word. -/
def U64 : ℕ := 2 ^ 64

/-- One step of the splitmix64 generator: from a state, produce the next
64-bit output and the advanced state.  This models the deterministic
seeded stream of the external SmallRng. -/
def splitmix64Next (state : ℕ) : ℕ × ℕ :=
  let s := (state + 0x9E3779B97F4A7C15) % U64
  let z := ((s ^^^ (s >>> 30)) * 0xBF58476D1CE4E5B9) % U64
  let z := ((z ^^^ (z >>> 27)) * 0x94D049BB133111EB) % U64
  ((z ^^^ (z >>> 31)) % U64, s)

/-- Model of SmallRng::seed_from_u64: the state of the stream is the seed. -/
def seedFromU64 (seed : ℕ) : ℕ := seed % U64

/-- Little-endian byte decomposition of a 64-bit word, 8 bytes. -/
def u64LEBytes (w : ℕ) : List ℕ :=
  [w % 256, w / 256 % 256, w / 256 ^ 2 % 256, w / 256 ^ 3 % 256,
   w / 256 ^ 4 % 256, w / 256 ^ 5 % 256, w / 256 ^ 6 % 256, w / 256 ^ 7 % 256]

/-- Generate a given number of 64-bit words from an RNG state, returning the
words and the advanced state. -/
def rngWords : ℕ → ℕ → List ℕ × ℕ
  | 0, s => ([], s)
  | k + 1, s =>
    ((splitmix64Next s).1 :: (rngWords k (splitmix64Next s).2).1,
     (rngWords k (splitmix64Next s).2).2)

/-- Model of RngCore::fill_bytes on the seeded stream: fill n bytes from the
state, advancing it by whole 64-bit words (little-endian byte order). -/
def fillBytes (s : ℕ) (n : ℕ) : List ℕ × ℕ :=
  ((((rngWords ((n + 7) / 8) s).1.map u64LEBytes).flatten).take n,
   (rngWords ((n + 7) / 8) s).2)

/-- Model of the external rand_distr Zipf sampler over the domain 1..n
(`Zipf::new(n, 1.0)` then `sample(rng) as u64`): a deterministic draw in
the interval from 1 to n that consumes one RNG step. -/
def zipfSample (n : ℕ) (state : ℕ) : ℕ × ℕ :=
  (1 + (splitmix64Next state).1 % n, (splitmix64Next state).2)

/-- KVSizeGen from src/generator.rs: a Zipf distribution over a range plus a
seeded SmallRng. `KVSizeGen::new(range, seed)` fails when the range is
empty (invalid Zipf domain); the range field records the domain. -/
structure KVSizeGen where
  range : ℕ
  rng : ℕ
deriving Repr, DecidableEq

/-- KVSizeGen::new: constructing the Zipf distribution fails if the domain
is empty. -/
def KVSizeGen.new (range : ℕ) (seed : ℕ) : Except String KVSizeGen :=
  if range = 0 then .error "Lambda must be positive"
  else .ok ⟨range, seedFromU64 seed⟩

/-- KVSizeGen::get_size: draw the next Zipf sample, advancing the RNG. -/
def KVSizeGen.get_size (g : KVSizeGen) : ℕ × KVSizeGen :=
  ((zipfSample g.range g.rng).1, ⟨g.range, (zipfSample g.range g.rng).2⟩)

/-- ByteGen from src/generator.rs: a Zipf distribution over the key index
domain plus a seeded SmallRng. -/
structure ByteGen where
  range : ℕ
  rng : ℕ
deriving Repr, DecidableEq

/-- ByteGen::new: constructing the Zipf distribution fails if the domain is
empty. -/
def ByteGen.new (range : ℕ) (seed : ℕ) : Except String ByteGen :=
  if range = 0 then .error "Lambda must be positive"
  else .ok ⟨range, seedFromU64 seed⟩

/-- ByteGen::get_key_bytes: sample a Zipf index from the internal RNG, then
fill size bytes from a fresh SmallRng reseeded from that index.  The byte
output depends only on the sampled index and the size; only the Zipf
sampling advances the internal state. -/
def ByteGen.get_key_bytes (g : ByteGen) (size : ℕ) : List ℕ × ByteGen :=
  ((fillBytes (seedFromU64 (zipfSample g.range g.rng).1) size).1,
   ⟨g.range, (zipfSample g.range g.rng).2⟩)

/-- ByteGen::get_value_bytes: fill size bytes from the internal RNG stream
(not reseeded per call). -/
def ByteGen.get_value_bytes (g : ByteGen) (size : ℕ) : List ℕ × ByteGen :=
  ((fillBytes g.rng size).1, ⟨g.range, (fillBytes g.rng size).2⟩)

/-- Length of the little-endian byte decomposition. -/
theorem u64LEBytes_length (w : ℕ) : (u64LEBytes w).length = 8 := rfl

/-- Number of generated words. -/
theorem rngWords_length (k s : ℕ) : (rngWords k s).1.length = k := by
  induction k generalizing s with
  | zero => rfl
  | succ k ih => simp [rngWords, ih]

/-- Sum of byte-chunk lengths over a word list. -/
theorem map_len_u64LEBytes_sum (l : List ℕ) :
    (l.map (List.length ∘ u64LEBytes)).sum = 8 * l.length := by
  induction l with
  | nil => simp
  | cons a l ih => simp [ih, u64LEBytes_length]; ring

/-- fillBytes returns exactly the requested number of bytes. -/
theorem fillBytes_length (s n : ℕ) : (fillBytes s n).1.length = n := by
  simp only [fillBytes, List.length_take, List.length_flatten, List.map_map]
  rw [map_len_u64LEBytes_sum, rngWords_length]
  omega

/-- WorkloadConfig from src/workload.rs: the pure accessors of a workload
descriptor.  value_size_start and value_size_end model the half-open Range
returned by get_value_size_range. -/
structure WorkloadConfig where
  name : String
  load_phase_insert_count : ℕ
  operation_count : ℕ
  read_percent : ℚ
  write_percent : ℚ
  key_size : ℕ
  value_size_start : ℕ
  value_size_end : ℕ
  thread_count : ℕ
deriving Repr, DecidableEq

/-- Outcome of a Rust computation: normal return, Err return, or crash
(assertion failure, unreachable branch, or unwrap of an Err). -/
inductive Outcome (α : Type) where
  | ok : α → Outcome α
  | err : String → Outcome α
  | crash : String → Outcome α
deriving Repr, DecidableEq

/-- Backend operations invoked through the Database capability, recorded as
a trace. -/
inductive BackendCall where
  | init : BackendCall
  | get : List ℕ → BackendCall
  | set : List ℕ → List ℕ → BackendCall
deriving Repr, DecidableEq

/-- WorkloadStats from src/workload.rs.  Durations are rational seconds;
histograms are modelled by the list of recorded microsecond samples (the
hdrhistogram quantizes stored values but counts every accepted record
exactly once, and no claim depends on the quantized values). -/
structure WorkloadStats where
  load_time : ℚ
  load_ops : ℕ
  run_wall_time : ℚ
  run_read_time : ℚ
  run_read_ops : ℕ
  run_read_hist_micro_sec : List ℕ
  run_write_time : ℚ
  run_write_ops : ℕ
  run_write_hist_micro_sec : List ℕ
deriving Repr, DecidableEq

/-- WorkloadStats::new: zeroed durations and counts, empty histograms
(Histogram::new_with_bounds(1, 10_000_000, 3) succeeds on these constant
bounds). -/
def WorkloadStats.new : WorkloadStats :=
  ⟨0, 0, 0, 0, 0, [], 0, 0, []⟩

/-- Upper bound of the latency histograms
(Histogram::new_with_bounds(1, 10_000_000, 3)). -/
def histHighBound : ℕ := 10000000

/-- Histogram::record on a histogram with the bounds above: accepts the
sample unless it exceeds the highest trackable value (auto-resize is off),
in which case it returns an error as in hdrhistogram. -/
def histRecord (h : List ℕ) (v : ℕ) : Except String (List ℕ) :=
  if v ≤ histHighBound then .ok (h ++ [v]) else .error "value out of range"

/-- validate_config from src/workload.rs: the six assertions on the
percentages.  In the source a violated assertion is a crash; here we
compute whether all assertions hold. -/
def validate_config (c : WorkloadConfig) : Bool :=
  decide (0 ≤ c.read_percent) && decide (c.read_percent ≤ 1) &&
  decide (0 ≤ c.write_percent) && decide (c.write_percent ≤ 1) &&
  decide (0 < c.read_percent + c.write_percent) &&
  decide (c.read_percent + c.write_percent ≤ 1)

/-- One iteration of the load loop body (src/workload.rs load, lines
202-213): draw a value size (Zipf sample plus the range floor), reseed a
SmallRng from the loop index i, fill key bytes then value bytes from that
single reseeded stream, and emit the set call. -/
def loadIteration (c : WorkloadConfig) (sg : KVSizeGen) (i : ℕ) :
    BackendCall × KVSizeGen :=
  (.set (fillBytes (seedFromU64 i) c.key_size).1
        (fillBytes (fillBytes (seedFromU64 i) c.key_size).2
          ((sg.get_size).1 + c.value_size_start)).1,
   (sg.get_size).2)

/-- The load loop over a list of indices: threads the size generator,
accumulates the summed set-call time and the backend-call trace, and
aborts on the first set error (the trace still records the failed call,
which was issued). setResults and setTimes are the oracle for the backend
outcome and measured duration of the set call at index i. -/
def loadLoop (c : WorkloadConfig) (setResults : ℕ → Except String Unit)
    (setTimes : ℕ → ℚ) :
    List ℕ → KVSizeGen → ℚ → List BackendCall →
    Outcome Unit × ℚ × List BackendCall
  | [], _, time, calls => (.ok (), time, calls)
  | i :: rest, sg, time, calls =>
    match setResults i with
    | .error m => (.err m, time, calls ++ [(loadIteration c sg i).1])
    | .ok _ =>
      loadLoop c setResults setTimes rest (loadIteration c sg i).2
        (time + setTimes i) (calls ++ [(loadIteration c sg i).1])

/-- load from src/workload.rs: construct the value-size generator (fails on
an empty Zipf domain before any set call), then run the load loop over
indices 0 .. load_phase_insert_count.  sizeSeed is the ambient random()
seed of the KVSizeGen. -/
def load (c : WorkloadConfig) (setResults : ℕ → Except String Unit)
    (setTimes : ℕ → ℚ) (sizeSeed : ℕ) :
    Outcome Unit × ℚ × List BackendCall :=
  match KVSizeGen.new (c.value_size_end - c.value_size_start) sizeSeed with
  | .error m => (.err m, 0, [])
  | .ok sg =>
    loadLoop c setResults setTimes (List.range c.load_phase_insert_count)
      sg 0 []

/-- exec_load from src/workload.rs: validate_config (a violated assertion
crashes before anything else), then db.init, then load; on success the
stats receive load_time and load_ops.  Returns the outcome, the resulting
stats (unchanged unless the whole phase succeeded) and the trace of
backend calls. -/
def exec_load (c : WorkloadConfig) (initResult : Except String Unit)
    (setResults : ℕ → Except String Unit) (setTimes : ℕ → ℚ)
    (sizeSeed : ℕ) (stats : WorkloadStats) :
    Outcome Unit × WorkloadStats × List BackendCall :=
  if validate_config c = false then
    (.crash "assertion failed", stats, [])
  else
    match initResult with
    | .error m => (.err m, stats, [.init])
    | .ok _ =>
      match load c setResults setTimes sizeSeed with
      | (.ok _, time, calls) =>
        (.ok (),
         { stats with load_time := time,
                      load_ops := c.load_phase_insert_count },
         .init :: calls)
      | (.err m, _, calls) => (.err m, stats, .init :: calls)
      | (.crash m, _, calls) => (.crash m, stats, .init :: calls)

/-- Decidable equality for Except results, needed to evaluate concrete
oracle environments. -/
instance exceptDecEq {ε α : Type} [DecidableEq ε] [DecidableEq α] :
    DecidableEq (Except ε α) := fun x y =>
  match x, y with
  | .ok a, .ok b =>
    if h : a = b then .isTrue (by rw [h]) else .isFalse (by simp [h])
  | .error a, .error b =>
    if h : a = b then .isTrue (by rw [h]) else .isFalse (by simp [h])
  | .ok _, .error _ => .isFalse (by simp)
  | .error _, .ok _ => .isFalse (by simp)

/-- Oracle for one iteration of the run loop: the uniform draw x from
rand::rng (a value in the interval from 0 inclusive to 1 exclusive), the
backend outcome of the get or set call, and the two Instant::elapsed
measurements the source takes (the first feeds the histogram in
microseconds, the second accumulates into the duration in seconds). -/
structure OpEnv where
  x : ℚ
  getResult : Except String Unit
  setResult : Except String Unit
  elapsedHistMicros : ℕ
  elapsedDur : ℚ
deriving Repr, DecidableEq

/-- Mutable local state of one worker executing run from src/workload.rs:
the accumulators, both generators, and the trace of backend calls issued. -/
structure RunState where
  read_duration : ℚ
  read_ops : ℕ
  read_hist : List ℕ
  write_duration : ℚ
  write_ops : ℕ
  write_hist : List ℕ
  size_gen : KVSizeGen
  bytes_gen : ByteGen
  calls : List BackendCall
deriving Repr, DecidableEq

/-- RunDuration from src/workload.rs: the per-worker result returned to
exec_run. -/
structure RunDuration where
  read_duration : ℚ
  read_ops : ℕ
  read_hist : List ℕ
  write_duration : ℚ
  write_ops : ℕ
  write_hist : List ℕ
deriving Repr, DecidableEq

/-- Projection of a finished worker state onto the returned RunDuration. -/
def RunState.toRunDuration (st : RunState) : RunDuration :=
  ⟨st.read_duration, st.read_ops, st.read_hist,
   st.write_duration, st.write_ops, st.write_hist⟩

/-- One iteration of the run loop (src/workload.rs run, lines 243-265):
draw x, draw key bytes, then branch: x below read_percent is a timed get;
otherwise x below read_percent + write_percent is a timed set with a fresh
value size and value bytes; otherwise the source hits
unreachable!("Should not get here"), a crash. -/
def runStep (c : WorkloadConfig) (st : RunState) (e : OpEnv) :
    Outcome RunState :=
  let kb := st.bytes_gen.get_key_bytes c.key_size
  if e.x < c.read_percent then
    match e.getResult with
    | .error m => .err m
    | .ok _ =>
      match histRecord st.read_hist e.elapsedHistMicros with
      | .error m => .err m
      | .ok hist' =>
        .ok { st with
          read_duration := st.read_duration + e.elapsedDur,
          read_ops := st.read_ops + 1,
          read_hist := hist',
          bytes_gen := kb.2,
          calls := st.calls ++ [.get kb.1] }
  else if e.x < c.read_percent + c.write_percent then
    match e.setResult with
    | .error m => .err m
    | .ok _ =>
      match histRecord st.write_hist e.elapsedHistMicros with
      | .error m => .err m
      | .ok hist' =>
        .ok { st with
          write_duration := st.write_duration + e.elapsedDur,
          write_ops := st.write_ops + 1,
          write_hist := hist',
          size_gen := (st.size_gen.get_size).2,
          bytes_gen := (kb.2.get_value_bytes (st.size_gen.get_size).1).2,
          calls := st.calls ++
            [.set kb.1 (kb.2.get_value_bytes (st.size_gen.get_size).1).1] }
  else
    .crash "Should not get here"

/-- The run loop over a list of per-iteration oracles, stopping at the
first error or crash. -/
def runList (c : WorkloadConfig) : List OpEnv → RunState → Outcome RunState
  | [], st => .ok st
  | e :: rest, st =>
    match runStep c st e with
    | .ok st' => runList c rest st'
    | .err m => .err m
    | .crash m => .crash m

/-- Initial worker state: the generators as run constructs them
(KVSizeGen over the value-size range width, ByteGen over the key index
domain load_phase_insert_count, each seeded from ambient random()). -/
def initRunState (c : WorkloadConfig) (sizeSeed bytesSeed : ℕ) : RunState :=
  ⟨0, 0, [], 0, 0, [],
   ⟨c.value_size_end - c.value_size_start, seedFromU64 sizeSeed⟩,
   ⟨c.load_phase_insert_count, seedFromU64 bytesSeed⟩, []⟩

/-- run from src/workload.rs, for one worker: construct both generators
(either construction fails on an empty Zipf domain, returned as an error),
then execute operation_count iterations driven by the env oracle. -/
def run (c : WorkloadConfig) (env : ℕ → OpEnv) (sizeSeed bytesSeed : ℕ) :
    Outcome RunDuration :=
  match KVSizeGen.new (c.value_size_end - c.value_size_start) sizeSeed with
  | .error m => .err m
  | .ok _ =>
    match ByteGen.new c.load_phase_insert_count bytesSeed with
    | .error m => .err m
    | .ok _ =>
      match runList c ((List.range c.operation_count).map env)
          (initRunState c sizeSeed bytesSeed) with
      | .ok st => .ok st.toRunDuration
      | .err m => .err m
      | .crash m => .crash m

/-- Join-and-unwrap of the worker results (src/workload.rs exec_run, lines
168-176): every worker result is unwrapped in order; an Err or a crashed
worker makes the unwrap itself crash, so the collected list exists only
when every worker returned ok. -/
def collectWorkers : List (Outcome RunDuration) → Option (List RunDuration)
  | [] => some []
  | .ok d :: rest => (collectWorkers rest).map (fun ds => d :: ds)
  | .err _ :: _ => none
  | .crash _ :: _ => none

/-- Merging one worker result into the accumulators (the += and add calls
of exec_run): durations and op counts add, histograms merge by
concatenating their recorded samples (counts add). -/
def mergeInto (acc : RunDuration) (d : RunDuration) : RunDuration :=
  ⟨acc.read_duration + d.read_duration, acc.read_ops + d.read_ops,
   acc.read_hist ++ d.read_hist,
   acc.write_duration + d.write_duration, acc.write_ops + d.write_ops,
   acc.write_hist ++ d.write_hist⟩

/-- The zeroed accumulators exec_run starts from. -/
def emptyRunDuration : RunDuration := ⟨0, 0, [], 0, 0, []⟩

/-- Fold of all worker results into the merged accumulators. -/
def mergeAll (ds : List RunDuration) : RunDuration :=
  ds.foldl mergeInto emptyRunDuration

/-- exec_run from src/workload.rs: spawn thread_count workers (worker t is
driven by envs t and its own ambient seeds), join and unwrap each result
in order, merge, and only then write every run_* field of the stats.  A
worker Err makes the join unwrap crash, in which case no stats field has
been assigned.  wall is the measured wall time of the whole scope. -/
def exec_run (c : WorkloadConfig) (envs : ℕ → ℕ → OpEnv)
    (sizeSeeds bytesSeeds : ℕ → ℕ) (wall : ℚ) (stats : WorkloadStats) :
    Outcome Unit × WorkloadStats :=
  let results := (List.range c.thread_count).map
    (fun t => run c (envs t) (sizeSeeds t) (bytesSeeds t))
  match collectWorkers results with
  | none => (.crash "called Result::unwrap on an Err value", stats)
  | some ds =>
    let m := mergeAll ds
    (.ok (),
     { stats with
        run_wall_time := wall,
        run_read_ops := m.read_ops,
        run_write_ops := m.write_ops,
        run_read_time := m.read_duration,
        run_write_time := m.write_duration,
        run_read_hist_micro_sec := m.read_hist,
        run_write_hist_micro_sec := m.write_hist })

/-- The throughput closure of the Display impl (src/workload.rs lines
47-53): 0 when the op count is zero or the duration is zero, otherwise
ops divided by the duration in seconds. -/
def throughput (ops : ℕ) (d : ℚ) : ℚ :=
  if ops = 0 ∨ d = 0 then 0 else (ops : ℚ) / d

/-- The `as u64` cast the Display impl applies to the throughput before
formatting: truncation toward zero of a nonnegative value. -/
def castU64 (q : ℚ) : ℕ := q.floor.toNat

/-- Model of hdrhistogram value_at_quantile on the recorded samples: the
entry of the sorted samples at the rank determined by q.  It abstracts the
quantization of stored values; no claim depends on the exact value at a
nonzero count. -/
def value_at_quantile (h : List ℕ) (q : ℚ) : ℕ :=
  (h.mergeSort (fun a b => a ≤ b)).getD
    (Nat.min (h.length - 1) (castU64 (q * h.length))) 0

/-- The percentile closure of the Display impl (src/workload.rs lines
54-60): the "-" sentinel on an empty histogram, otherwise the formatted
value at the quantile (thousands separators elided). -/
def percentileField (h : List ℕ) (q : ℚ) : String :=
  if h.isEmpty then "-" else toString (value_at_quantile h q)

/-- The numeric and string content of the rendered three-section report. -/
structure RenderedReport where
  load_ops : ℕ
  load_throughput : ℕ
  read_ops : ℕ
  read_throughput : ℕ
  r_p50 : String
  r_p95 : String
  r_p99 : String
  r_p999 : String
  write_ops : ℕ
  write_throughput : ℕ
  w_p50 : String
  w_p95 : String
  w_p99 : String
  w_p999 : String
deriving Repr, DecidableEq

/-- The Display impl for WorkloadStats (src/workload.rs lines 45-109):
load throughput divides load_ops by load_time; the run read and write
throughputs divide the op counts by the summed per-worker durations
run_read_time and run_write_time (the wall time appears only in the
printed time field); percentiles are taken at 0.50, 0.95, 0.99, 0.999. -/
def render (st : WorkloadStats) : RenderedReport :=
  { load_ops := st.load_ops,
    load_throughput := castU64 (throughput st.load_ops st.load_time),
    read_ops := st.run_read_ops,
    read_throughput := castU64 (throughput st.run_read_ops st.run_read_time),
    r_p50 := percentileField st.run_read_hist_micro_sec (50 / 100),
    r_p95 := percentileField st.run_read_hist_micro_sec (95 / 100),
    r_p99 := percentileField st.run_read_hist_micro_sec (99 / 100),
    r_p999 := percentileField st.run_read_hist_micro_sec (999 / 1000),
    write_ops := st.run_write_ops,
    write_throughput :=
      castU64 (throughput st.run_write_ops st.run_write_time),
    w_p50 := percentileField st.run_write_hist_micro_sec (50 / 100),
    w_p95 := percentileField st.run_write_hist_micro_sec (95 / 100),
    w_p99 := percentileField st.run_write_hist_micro_sec (99 / 100),
    w_p999 := percentileField st.run_write_hist_micro_sec (999 / 1000) }

/-- Discriminator: did a computation return through the Err channel. -/
def Outcome.isErr {α : Type} : Outcome α → Bool
  | .err _ => true
  | _ => false

/-- The value payload of a set call (empty for other calls). -/
def BackendCall.setValue : BackendCall → List ℕ
  | .set _ v => v
  | _ => []

/-- Concrete descriptor used to exhibit the throughput rendering:
load_time 1s with 1000 load ops, run_read_time 2s with 100 read ops under
a 50s wall time, run_write_time 4s with 200 write ops. -/
def statsThroughputDemo : WorkloadStats :=
  ⟨1, 1000, 50, 2, 100, [5], 4, 200, [6]⟩

/-- C5: key byte generation is deterministic per logical index: whenever
two ByteGen instances (any states, any prior call histories) sample the
same Zipfian index, get_key_bytes returns byte-identical output for every
size, because the bytes are drawn from a fresh source reseeded from the
index alone. -/
theorem c5_key_bytes_deterministic (g₁ g₂ : ByteGen) (size : ℕ)
    (h : (zipfSample g₁.range g₁.rng).1 = (zipfSample g₂.range g₂.rng).1) :
    (g₁.get_key_bytes size).1 = (g₂.get_key_bytes size).1 := by
  simp only [ByteGen.get_key_bytes, h]

/-- Witness for C5 at two generators with different internal RNG states
that sample the same index. -/
theorem c5_witness :
    (zipfSample (ByteGen.mk 1 0).range (ByteGen.mk 1 0).rng).1
      = (zipfSample (ByteGen.mk 1 999).range (ByteGen.mk 1 999).rng).1 ∧
    ((ByteGen.mk 1 0).get_key_bytes 4).1
      = ((ByteGen.mk 1 999).get_key_bytes 4).1 :=
  ⟨by decide,
   c5_key_bytes_deterministic (ByteGen.mk 1 0) (ByteGen.mk 1 999) 4
     (by decide)⟩

/-- C6: the load phase sizes each value as the Zipfian sample plus the
value-size range floor, while the run phase write branch sizes its value
as the raw Zipfian sample, so with a nonzero floor the two lengths
obtained from the same sampler state differ. -/
theorem c6_value_size_floor_mismatch :
    (∀ (c : WorkloadConfig) (sg : KVSizeGen) (i : ℕ),
      ((loadIteration c sg i).1.setValue).length
        = (sg.get_size).1 + c.value_size_start) ∧
    (∀ (c : WorkloadConfig) (st : RunState) (e : OpEnv),
      ¬ e.x < c.read_percent →
      e.x < c.read_percent + c.write_percent →
      e.setResult = .ok () →
      e.elapsedHistMicros ≤ histHighBound →
      ∃ st', runStep c st e = .ok st' ∧
        st'.calls = st.calls ++
          [.set ((st.bytes_gen.get_key_bytes c.key_size).1)
            (((st.bytes_gen.get_key_bytes c.key_size).2).get_value_bytes
              (st.size_gen.get_size).1).1] ∧
        ((((st.bytes_gen.get_key_bytes c.key_size).2).get_value_bytes
            (st.size_gen.get_size).1).1).length = (st.size_gen.get_size).1) ∧
    (∀ (c : WorkloadConfig) (sg : KVSizeGen), c.value_size_start ≠ 0 →
      (sg.get_size).1 + c.value_size_start ≠ (sg.get_size).1) := by
  refine ⟨?_, ?_, ?_⟩
  · intro c sg i
    simp [loadIteration, BackendCall.setValue, fillBytes_length]
  · intro c st e hx1 hx2 hset hrec
    have hstep : runStep c st e = .ok { st with
        write_duration := st.write_duration + e.elapsedDur,
        write_ops := st.write_ops + 1,
        write_hist := st.write_hist ++ [e.elapsedHistMicros],
        size_gen := (st.size_gen.get_size).2,
        bytes_gen := ((st.bytes_gen.get_key_bytes c.key_size).2.get_value_bytes
          (st.size_gen.get_size).1).2,
        calls := st.calls ++
          [.set ((st.bytes_gen.get_key_bytes c.key_size).1)
            (((st.bytes_gen.get_key_bytes c.key_size).2).get_value_bytes
              (st.size_gen.get_size).1).1] } := by
      unfold runStep
      rw [if_neg hx1, if_pos hx2, hset]
      unfold histRecord
      rw [if_pos hrec]
    exact ⟨_, hstep, rfl, by simp [ByteGen.get_value_bytes, fillBytes_length]⟩
  · intro c sg h
    omega

/-- Concrete descriptor exercising the write branch of the run loop: no
reads, all writes, value-size floor 1. -/
def c6Config : WorkloadConfig := ⟨"c6", 1, 1, 0, 1, 2, 1, 3, 1⟩

/-- Initial worker state for the C6 witness. -/
def c6State : RunState := initRunState c6Config 0 0

/-- Oracle forcing the write branch (x = 0 with read_percent 0). -/
def c6Env : OpEnv := ⟨0, .ok (), .ok (), 5, 1⟩

/-- Witness for C6 at a concrete descriptor, worker state and oracle. -/
theorem c6_witness :
    ((loadIteration c6Config (KVSizeGen.mk 2 0) 0).1.setValue).length
      = ((KVSizeGen.mk 2 0).get_size).1 + c6Config.value_size_start ∧
    (∃ st', runStep c6Config c6State c6Env = .ok st' ∧
      st'.calls = c6State.calls ++
        [.set ((c6State.bytes_gen.get_key_bytes c6Config.key_size).1)
          (((c6State.bytes_gen.get_key_bytes c6Config.key_size).2).get_value_bytes
            (c6State.size_gen.get_size).1).1] ∧
      ((((c6State.bytes_gen.get_key_bytes c6Config.key_size).2).get_value_bytes
          (c6State.size_gen.get_size).1).1).length
        = (c6State.size_gen.get_size).1) ∧
    ((KVSizeGen.mk 2 0).get_size).1 + c6Config.value_size_start
      ≠ ((KVSizeGen.mk 2 0).get_size).1 :=
  ⟨c6_value_size_floor_mismatch.1 c6Config (KVSizeGen.mk 2 0) 0,
   c6_value_size_floor_mismatch.2.1 c6Config c6State c6Env
     (by with_unfolding_all decide) (by with_unfolding_all decide) rfl
     (by decide),
   c6_value_size_floor_mismatch.2.2 c6Config (KVSizeGen.mk 2 0) (by decide)⟩

/-- C7: the rendered run-read and run-write throughputs divide the op
counts by the summed per-worker durations run_read_time and
run_write_time (in seconds), not by the run wall time (on the demo stats
the wall-time quotient would be 2, and 50 is rendered); load throughput
divides load_ops by load_time, and 1000 ops over 1 second renders exactly
1000. -/
theorem c7_throughput_denominators :
    (∀ st : WorkloadStats,
      (render st).read_throughput
        = castU64 (throughput st.run_read_ops st.run_read_time) ∧
      (render st).write_throughput
        = castU64 (throughput st.run_write_ops st.run_write_time) ∧
      (render st).load_throughput
        = castU64 (throughput st.load_ops st.load_time)) ∧
    (render statsThroughputDemo).read_throughput = 50 ∧
    castU64 (throughput statsThroughputDemo.run_read_ops
      statsThroughputDemo.run_wall_time) = 2 ∧
    (render statsThroughputDemo).write_throughput = 50 ∧
    (render { WorkloadStats.new with
      load_ops := 1000, load_time := 1 }).load_throughput = 1000 :=
  ⟨fun _ => ⟨rfl, rfl, rfl⟩,
   by with_unfolding_all decide,
   by with_unfolding_all decide,
   by with_unfolding_all decide,
   by with_unfolding_all decide⟩

/-- C10: rendering stats with zero recorded operations is total and safe:
every percentile field over an empty histogram renders the no-data
sentinel "-", and the throughput computation returns 0 whenever the op
count or the duration is zero, so the report never divides by zero. -/
theorem c10_zero_ops_render (st : WorkloadStats) :
    (st.run_read_hist_micro_sec = [] →
      (render st).r_p50 = "-" ∧ (render st).r_p95 = "-" ∧
      (render st).r_p99 = "-" ∧ (render st).r_p999 = "-") ∧
    (st.run_write_hist_micro_sec = [] →
      (render st).w_p50 = "-" ∧ (render st).w_p95 = "-" ∧
      (render st).w_p99 = "-" ∧ (render st).w_p999 = "-") ∧
    (∀ (ops : ℕ) (d : ℚ), ops = 0 ∨ d = 0 → throughput ops d = 0) := by
  refine ⟨fun h => ?_, fun h => ?_, fun ops d h => ?_⟩
  · simp [render, percentileField, h]
  · simp [render, percentileField, h]
  · unfold throughput
    rw [if_pos h]

/-- Witness for C10 at the freshly initialized stats. -/
theorem c10_witness :
    (render WorkloadStats.new).r_p50 = "-" ∧
    (render WorkloadStats.new).r_p999 = "-" ∧
    (render WorkloadStats.new).w_p50 = "-" ∧
    (render WorkloadStats.new).w_p999 = "-" ∧
    throughput 0 5 = 0 ∧ throughput 7 0 = 0 :=
  ⟨((c10_zero_ops_render WorkloadStats.new).1 rfl).1,
   ((c10_zero_ops_render WorkloadStats.new).1 rfl).2.2.2,
   ((c10_zero_ops_render WorkloadStats.new).2.1 rfl).1,
   ((c10_zero_ops_render WorkloadStats.new).2.1 rfl).2.2.2,
   (c10_zero_ops_render WorkloadStats.new).2.2 0 5 (Or.inl rfl),
   (c10_zero_ops_render WorkloadStats.new).2.2 7 0 (Or.inr rfl)⟩

/-- Concrete descriptor with an incomplete operation mix (the percentages
sum to one half), nevertheless accepted by validate_config. -/
def c1Config : WorkloadConfig := ⟨"gap", 1, 1, mkRat 1 4, mkRat 1 4, 1, 1, 2, 1⟩

/-- Oracle whose uniform draw falls in the gap between the combined
percentage and 1. -/
def c1Env : OpEnv := ⟨mkRat 3 4, .ok (), .ok (), 1, 1⟩

/-- C1 (code bug, evaluated at the failing input): a descriptor with
read_percent + write_percent below 1 passes validate_config, yet the run
loop reaches the unreachable-path crash on a uniform draw inside the gap
instead of rejecting the descriptor or skipping the operation. -/
theorem c1_gap_branch_crashes :
    validate_config c1Config = true ∧
    (0 ≤ c1Env.x ∧ c1Env.x < 1) ∧
    c1Config.read_percent + c1Config.write_percent ≤ c1Env.x ∧
    run c1Config (fun _ => c1Env) 0 0 = .crash "Should not get here" := by
  with_unfolding_all decide

/-- The first component of loadLoop is never a crash: the load loop either
completes or propagates a set error. -/
theorem loadLoop_fst_ne_crash (c : WorkloadConfig)
    (setResults : ℕ → Except String Unit) (setTimes : ℕ → ℚ) :
    ∀ (js : List ℕ) (sg : KVSizeGen) (time : ℚ) (calls : List BackendCall)
      (m : String),
    (loadLoop c setResults setTimes js sg time calls).1 ≠ .crash m := by
  intro js
  induction js with
  | nil => intro sg time calls m h; simp [loadLoop] at h
  | cons i rest ih =>
    intro sg time calls m
    unfold loadLoop
    cases hres : setResults i with
    | error e => simp
    | ok u => exact ih _ _ _ m

/-- The first component of load is never a crash. -/
theorem load_fst_ne_crash (c : WorkloadConfig)
    (setResults : ℕ → Except String Unit) (setTimes : ℕ → ℚ)
    (sizeSeed : ℕ) (m : String) :
    (load c setResults setTimes sizeSeed).1 ≠ .crash m := by
  unfold load
  cases h : KVSizeGen.new (c.value_size_end - c.value_size_start) sizeSeed with
  | error e => simp
  | ok sg => exact loadLoop_fst_ne_crash c setResults setTimes _ sg 0 [] m

/-- C3: descriptor validation happens before any backend call: a
descriptor violating one of the six percentage conditions makes exec_load
crash with an empty backend-call trace, a descriptor satisfying them
never triggers the validation crash, and validate_config holds exactly on
the six conditions. -/
theorem c3_validation_before_backend (c : WorkloadConfig)
    (initResult : Except String Unit) (setResults : ℕ → Except String Unit)
    (setTimes : ℕ → ℚ) (sizeSeed : ℕ) (stats : WorkloadStats) :
    (validate_config c = true ↔
      (0 ≤ c.read_percent ∧ c.read_percent ≤ 1 ∧
       0 ≤ c.write_percent ∧ c.write_percent ≤ 1 ∧
       0 < c.read_percent + c.write_percent ∧
       c.read_percent + c.write_percent ≤ 1)) ∧
    (validate_config c = false →
      exec_load c initResult setResults setTimes sizeSeed stats
        = (.crash "assertion failed", stats, [])) ∧
    (validate_config c = true →
      ∀ m, (exec_load c initResult setResults setTimes sizeSeed stats).1
        ≠ .crash m) := by
  refine ⟨?_, ?_, ?_⟩
  · simp [validate_config, Bool.and_eq_true, decide_eq_true_eq, and_assoc]
  · intro h
    simp [exec_load, h]
  · intro h m
    have hval : ¬ validate_config c = false := by simp [h]
    unfold exec_load
    rw [if_neg hval]
    cases initResult with
    | error e => simp
    | ok u =>
      rcases hld : load c setResults setTimes sizeSeed with ⟨o, time, calls⟩
      have hnc := load_fst_ne_crash c setResults setTimes sizeSeed m
      rw [hld] at hnc
      cases o with
      | ok v => simp
      | err e => simp
      | crash mm =>
        simp only at hnc
        simp [hnc]

/-- Descriptor with a negative read percentage, rejected by validation. -/
def c3BadConfig : WorkloadConfig := ⟨"bad", 1, 1, -1, 1, 1, 1, 2, 1⟩

/-- Descriptor with a pure-read mix, accepted by validation. -/
def c3GoodConfig : WorkloadConfig := ⟨"good", 1, 1, 1, 0, 1, 1, 2, 1⟩

/-- Witness for C3: the invalid descriptor crashes exec_load with an empty
backend trace; the valid one does not hit the validation crash. -/
theorem c3_witness :
    exec_load c3BadConfig (.ok ()) (fun _ => .ok ()) (fun _ => 0) 0
      WorkloadStats.new = (.crash "assertion failed", WorkloadStats.new, []) ∧
    (exec_load c3GoodConfig (.ok ()) (fun _ => .ok ()) (fun _ => 0) 0
      WorkloadStats.new).1 ≠ .crash "assertion failed" :=
  ⟨(c3_validation_before_backend c3BadConfig (.ok ()) (fun _ => .ok ())
      (fun _ => 0) 0 WorkloadStats.new).2.1 (by with_unfolding_all decide),
   (c3_validation_before_backend c3GoodConfig (.ok ()) (fun _ => .ok ())
      (fun _ => 0) 0 WorkloadStats.new).2.2 (by with_unfolding_all decide)
     "assertion failed"⟩

/-- Concrete pure-read descriptor for exercising a worker backend error. -/
def c2Config : WorkloadConfig := ⟨"rw", 1, 1, 1, 0, 1, 1, 2, 1⟩

/-- Oracle whose get call fails with an IO error. -/
def c2Env : OpEnv := ⟨0, .error "io error", .ok (), 1, 1⟩

/-- C2 counterexample: with a worker whose backend get fails, the worker
returns the error, but exec_run does not surface it as a returned error:
the join unwrap crashes instead (Outcome.isErr is false on the result). -/
theorem c2_counterexample :
    run c2Config (fun _ => c2Env) 0 0 = .err "io error" ∧
    (exec_run c2Config (fun _ _ => c2Env) (fun _ => 0) (fun _ => 0) 1
      WorkloadStats.new).1 = .crash "called Result::unwrap on an Err value" ∧
    ((exec_run c2Config (fun _ _ => c2Env) (fun _ => 0) (fun _ => 0) 1
      WorkloadStats.new).1).isErr = false := by
  with_unfolding_all decide

/-- Joining worker results crashes as soon as some worker returned through
the Err channel. -/
theorem collectWorkers_eq_none_of_mem_err :
    ∀ (rs : List (Outcome RunDuration)), (∃ r ∈ rs, r.isErr = true) →
    collectWorkers rs = none := by
  intro rs
  induction rs with
  | nil =>
    rintro ⟨r, hr, _⟩
    cases hr
  | cons a rest ih =>
    rintro ⟨r, hr, herr⟩
    rcases List.mem_cons.mp hr with heq | hmem
    · subst heq
      cases r with
      | ok d => simp [Outcome.isErr] at herr
      | err m => rfl
      | crash m => rfl
    · cases a with
      | ok d =>
        unfold collectWorkers
        rw [ih ⟨r, hmem, herr⟩]
        rfl
      | err m => rfl
      | crash m => rfl

/-- C2 amended: if any worker returns a backend error during the run
phase, exec_run fails fast by crashing on the unwrap of that worker
result (rather than returning the error), and no partial results are
recorded into the stats, which are returned unchanged. -/
theorem c2_amended_worker_error_crashes (c : WorkloadConfig)
    (envs : ℕ → ℕ → OpEnv) (sizeSeeds bytesSeeds : ℕ → ℕ) (wall : ℚ)
    (stats : WorkloadStats)
    (h : ∃ t, t < c.thread_count ∧
      (run c (envs t) (sizeSeeds t) (bytesSeeds t)).isErr = true) :
    (exec_run c envs sizeSeeds bytesSeeds wall stats).1
      = .crash "called Result::unwrap on an Err value" ∧
    (exec_run c envs sizeSeeds bytesSeeds wall stats).2 = stats := by
  obtain ⟨t, ht, herr⟩ := h
  have hmem : run c (envs t) (sizeSeeds t) (bytesSeeds t) ∈
      (List.range c.thread_count).map
        (fun t => run c (envs t) (sizeSeeds t) (bytesSeeds t)) :=
    List.mem_map.mpr ⟨t, List.mem_range.mpr ht, rfl⟩
  have hnone := collectWorkers_eq_none_of_mem_err _ ⟨_, hmem, herr⟩
  constructor <;> simp only [exec_run, hnone]

/-- Witness for the amended C2 at the concrete failing worker. -/
theorem c2_amended_witness :
    (exec_run c2Config (fun _ _ => c2Env) (fun _ => 0) (fun _ => 0) 1
      WorkloadStats.new).1 = .crash "called Result::unwrap on an Err value" ∧
    (exec_run c2Config (fun _ _ => c2Env) (fun _ => 0) (fun _ => 0) 1
      WorkloadStats.new).2 = WorkloadStats.new :=
  c2_amended_worker_error_crashes c2Config (fun _ _ => c2Env) (fun _ => 0)
    (fun _ => 0) 1 WorkloadStats.new
    ⟨0, by decide, by with_unfolding_all decide⟩

/-- A successful run-loop step performs exactly one operation: it
increments exactly one of read_ops and write_ops, and it preserves the
histogram-count-equals-op-count invariants. -/
theorem runStep_ok_counts {c : WorkloadConfig} {st st' : RunState}
    {e : OpEnv} (h : runStep c st e = .ok st') :
    st'.read_ops + st'.write_ops = st.read_ops + st.write_ops + 1 ∧
    (st.read_hist.length = st.read_ops →
      st'.read_hist.length = st'.read_ops) ∧
    (st.write_hist.length = st.write_ops →
      st'.write_hist.length = st'.write_ops) := by
  unfold runStep at h
  split at h
  · cases hg : e.getResult with
    | error m => rw [hg] at h; simp at h
    | ok u =>
      rw [hg] at h
      cases hh : histRecord st.read_hist e.elapsedHistMicros with
      | error m => rw [hh] at h; simp at h
      | ok hist' =>
        rw [hh] at h
        simp only [Outcome.ok.injEq] at h
        subst h
        unfold histRecord at hh
        split at hh
        · simp only [Except.ok.injEq] at hh
          subst hh
          refine ⟨by simp; omega, fun hr => by simp [hr], fun hw => by simp [hw]⟩
        · simp at hh
  · split at h
    · cases hs : e.setResult with
      | error m => rw [hs] at h; simp at h
      | ok u =>
        rw [hs] at h
        cases hh : histRecord st.write_hist e.elapsedHistMicros with
        | error m => rw [hh] at h; simp at h
        | ok hist' =>
          rw [hh] at h
          simp only [Outcome.ok.injEq] at h
          subst h
          unfold histRecord at hh
          split at hh
          · simp only [Except.ok.injEq] at hh
            subst hh
            refine ⟨by simp; omega, fun hr => by simp [hr], fun hw => by simp [hw]⟩
          · simp at hh
    · simp at h

/-- Over a successful run loop, the op counters advance by exactly the
number of iterations, and the histogram-count invariants are preserved. -/
theorem runList_ok_counts {c : WorkloadConfig} :
    ∀ (envs : List OpEnv) (st st' : RunState),
    runList c envs st = .ok st' →
    st'.read_ops + st'.write_ops
      = st.read_ops + st.write_ops + envs.length ∧
    (st.read_hist.length = st.read_ops →
      st'.read_hist.length = st'.read_ops) ∧
    (st.write_hist.length = st.write_ops →
      st'.write_hist.length = st'.write_ops) := by
  intro envs
  induction envs with
  | nil =>
    intro st st' h
    unfold runList at h
    simp only [Outcome.ok.injEq] at h
    subst h
    simp
  | cons e rest ih =>
    intro st st' h
    unfold runList at h
    cases hs : runStep c st e with
    | ok st₁ =>
      rw [hs] at h
      obtain ⟨h1, h2, h3⟩ := runStep_ok_counts hs
      obtain ⟨g1, g2, g3⟩ := ih st₁ st' h
      refine ⟨by simp only [List.length_cons]; omega,
        fun hr => g2 (h2 hr), fun hw => g3 (h3 hw)⟩
    | err m => rw [hs] at h; simp at h
    | crash m => rw [hs] at h; simp at h

/-- A successful worker run performs exactly operation_count operations,
and each histogram holds exactly as many samples as the corresponding op
counter. -/
theorem run_ok_counts {c : WorkloadConfig} {env : ℕ → OpEnv} {ss bs : ℕ}
    {d : RunDuration} (h : run c env ss bs = .ok d) :
    d.read_ops + d.write_ops = c.operation_count ∧
    d.read_hist.length = d.read_ops ∧
    d.write_hist.length = d.write_ops := by
  unfold run at h
  cases hk : KVSizeGen.new (c.value_size_end - c.value_size_start) ss with
  | error m => rw [hk] at h; simp at h
  | ok sg =>
    rw [hk] at h
    cases hb : ByteGen.new c.load_phase_insert_count bs with
    | error m => rw [hb] at h; simp at h
    | ok bg =>
      rw [hb] at h
      cases hr : runList c ((List.range c.operation_count).map env)
          (initRunState c ss bs) with
      | ok st =>
        rw [hr] at h
        simp only [Outcome.ok.injEq] at h
        subst h
        obtain ⟨h1, h2, h3⟩ := runList_ok_counts _ _ _ hr
        simp only [initRunState, List.length_map, List.length_range] at h1 h2 h3
        exact ⟨by simpa [RunState.toRunDuration] using h1,
          by simpa [RunState.toRunDuration] using h2 rfl,
          by simpa [RunState.toRunDuration] using h3 rfl⟩
      | err m => rw [hr] at h; simp at h
      | crash m => rw [hr] at h; simp at h

/-- Collected worker results: the collected list has one entry per worker,
and every entry came from an ok worker result. -/
theorem collectWorkers_some_mem :
    ∀ (rs : List (Outcome RunDuration)) (ds : List RunDuration),
    collectWorkers rs = some ds →
    ds.length = rs.length ∧ ∀ d ∈ ds, Outcome.ok d ∈ rs := by
  intro rs
  induction rs with
  | nil =>
    intro ds h
    unfold collectWorkers at h
    simp only [Option.some.injEq] at h
    subst h
    simp
  | cons a rest ih =>
    intro ds h
    cases a with
    | ok d0 =>
      unfold collectWorkers at h
      cases hr : collectWorkers rest with
      | none => rw [hr] at h; simp at h
      | some ds' =>
        rw [hr] at h
        simp at h
        subst h
        obtain ⟨hl, hm⟩ := ih ds' hr
        refine ⟨by simp [hl], fun d hd => ?_⟩
        rcases List.mem_cons.mp hd with heq | hmem
        · subst heq; exact List.mem_cons_self _ _
        · exact List.mem_cons_of_mem _ (hm d hmem)
    | err m => simp [collectWorkers] at h
    | crash m => simp [collectWorkers] at h

/-- Projections of the exec_run merge fold: op counts and histogram sizes
add up across the merged worker results. -/
theorem foldl_mergeInto_proj :
    ∀ (ds : List RunDuration) (acc : RunDuration),
    ((ds.foldl mergeInto acc).read_ops
        = acc.read_ops + (ds.map (fun d => d.read_ops)).sum) ∧
    ((ds.foldl mergeInto acc).write_ops
        = acc.write_ops + (ds.map (fun d => d.write_ops)).sum) ∧
    ((ds.foldl mergeInto acc).read_hist.length
        = acc.read_hist.length
          + (ds.map (fun d => d.read_hist.length)).sum) ∧
    ((ds.foldl mergeInto acc).write_hist.length
        = acc.write_hist.length
          + (ds.map (fun d => d.write_hist.length)).sum) := by
  intro ds
  induction ds with
  | nil => intro acc; simp
  | cons d rest ih =>
    intro acc
    obtain ⟨h1, h2, h3, h4⟩ := ih (mergeInto acc d)
    simp only [List.foldl_cons, List.map_cons, List.sum_cons]
    refine ⟨?_, ?_, ?_, ?_⟩
    · rw [h1]; simp only [mergeInto]; omega
    · rw [h2]; simp only [mergeInto]; omega
    · rw [h3]; simp only [mergeInto, List.length_append]; omega
    · rw [h4]; simp only [mergeInto, List.length_append]; omega

/-- Summing a pointwise-constant function over a list. -/
theorem sum_map_const_of_eq {α : Type} :
    ∀ (l : List α) (f : α → ℕ) (k : ℕ),
    (∀ x ∈ l, f x = k) → (l.map f).sum = k * l.length := by
  intro l
  induction l with
  | nil => intro f k h; simp
  | cons a rest ih =>
    intro f k h
    simp only [List.map_cons, List.sum_cons, List.length_cons, Nat.mul_succ]
    rw [h a (List.mem_cons_self _ _),
      ih f k (fun x hx => h x (List.mem_cons_of_mem _ hx))]
    omega

/-- Summing pointwise-equal functions over a list. -/
theorem sum_map_congr_eq {α : Type} :
    ∀ (l : List α) (f g : α → ℕ),
    (∀ x ∈ l, f x = g x) → (l.map f).sum = (l.map g).sum := by
  intro l
  induction l with
  | nil => intro f g h; rfl
  | cons a rest ih =>
    intro f g h
    simp only [List.map_cons, List.sum_cons]
    rw [h a (List.mem_cons_self _ _),
      ih f g (fun x hx => h x (List.mem_cons_of_mem _ hx))]

/-- Splitting a sum of pointwise sums over a list. -/
theorem sum_map_add_split {α : Type} :
    ∀ (l : List α) (f g : α → ℕ),
    (l.map f).sum + (l.map g).sum = (l.map (fun x => f x + g x)).sum := by
  intro l
  induction l with
  | nil => intro f g; rfl
  | cons a rest ih =>
    intro f g
    simp only [List.map_cons, List.sum_cons]
    rw [← ih f g]
    omega

/-- C4: when the operation mix is complete (read_percent + write_percent
equals 1), a successful run phase yields merged counts with run_read_ops
plus run_write_ops equal to thread_count times operation_count; moreover
every worker that returned ok performed exactly operation_count
operations, each incrementing exactly one of the two counters. -/
theorem c4_total_run_ops (c : WorkloadConfig) (envs : ℕ → ℕ → OpEnv)
    (sizeSeeds bytesSeeds : ℕ → ℕ) (wall : ℚ) (stats : WorkloadStats)
    (hmix : c.read_percent + c.write_percent = 1)
    (hok : (exec_run c envs sizeSeeds bytesSeeds wall stats).1 = .ok ()) :
    ((exec_run c envs sizeSeeds bytesSeeds wall stats).2).run_read_ops
      + ((exec_run c envs sizeSeeds bytesSeeds wall stats).2).run_write_ops
      = c.thread_count * c.operation_count ∧
    (∀ (t : ℕ) (d : RunDuration),
      run c (envs t) (sizeSeeds t) (bytesSeeds t) = .ok d →
      d.read_ops + d.write_ops = c.operation_count) := by
  refine ⟨?_, fun t d hd => (run_ok_counts hd).1⟩
  simp only [exec_run] at hok ⊢
  cases hcw : collectWorkers ((List.range c.thread_count).map
      (fun t => run c (envs t) (sizeSeeds t) (bytesSeeds t))) with
  | none => rw [hcw] at hok; simp at hok
  | some ds =>
    show (mergeAll ds).read_ops + (mergeAll ds).write_ops
      = c.thread_count * c.operation_count
    obtain ⟨hlen, hmem⟩ := collectWorkers_some_mem _ _ hcw
    simp only [List.length_map, List.length_range] at hlen
    have hperd : ∀ x ∈ ds, x.read_ops + x.write_ops = c.operation_count := by
      intro x hx
      obtain ⟨t, ht, heq⟩ := List.mem_map.mp (hmem x hx)
      exact (run_ok_counts heq).1
    obtain ⟨p1, p2, _, _⟩ := foldl_mergeInto_proj ds emptyRunDuration
    have hsum : (ds.map (fun d => d.read_ops)).sum
        + (ds.map (fun d => d.write_ops)).sum
        = c.operation_count * ds.length := by
      rw [sum_map_add_split]
      exact sum_map_const_of_eq ds _ _ hperd
    simp only [mergeAll, emptyRunDuration] at p1 p2
    simp only [mergeAll, emptyRunDuration, p1, p2]
    rw [hlen] at hsum
    rw [Nat.mul_comm c.thread_count c.operation_count]
    omega

/-- Concrete complete-mix descriptor with 2 worker threads and 2
operations per worker. -/
def c4Config : WorkloadConfig :=
  ⟨"c4", 1, 2, mkRat 1 2, mkRat 1 2, 1, 1, 2, 2⟩

/-- Oracle with all-ok backend results and uniform draw 0 (read branch). -/
def c4Env : OpEnv := ⟨0, .ok (), .ok (), 5, 1⟩

/-- Witness for C4 at the concrete descriptor: 2 threads times 2
operations merge to 4 operations. -/
theorem c4_witness :
    ((exec_run c4Config (fun _ _ => c4Env) (fun _ => 0) (fun _ => 0) 1
      WorkloadStats.new).2).run_read_ops
      + ((exec_run c4Config (fun _ _ => c4Env) (fun _ => 0) (fun _ => 0) 1
        WorkloadStats.new).2).run_write_ops
      = c4Config.thread_count * c4Config.operation_count :=
  (c4_total_run_ops c4Config (fun _ _ => c4Env) (fun _ => 0) (fun _ => 0) 1
    WorkloadStats.new (by with_unfolding_all decide)
    (by with_unfolding_all decide)).1

/-- C9: in every successfully returned per-worker Run Result the histogram
sample count equals the op count for both reads and writes, and the same
holds for the merged histograms and counts after a successful exec_run. -/
theorem c9_hist_counts_eq_ops :
    (∀ (c : WorkloadConfig) (env : ℕ → OpEnv) (ss bs : ℕ)
       (d : RunDuration),
      run c env ss bs = .ok d →
      d.read_hist.length = d.read_ops ∧
      d.write_hist.length = d.write_ops) ∧
    (∀ (c : WorkloadConfig) (envs : ℕ → ℕ → OpEnv) (ss bs : ℕ → ℕ)
       (wall : ℚ) (stats : WorkloadStats),
      (exec_run c envs ss bs wall stats).1 = .ok () →
      ((exec_run c envs ss bs wall stats).2).run_read_hist_micro_sec.length
        = ((exec_run c envs ss bs wall stats).2).run_read_ops ∧
      ((exec_run c envs ss bs wall stats).2).run_write_hist_micro_sec.length
        = ((exec_run c envs ss bs wall stats).2).run_write_ops) := by
  refine ⟨fun c env ss bs d hd => ⟨(run_ok_counts hd).2.1,
    (run_ok_counts hd).2.2⟩, ?_⟩
  intro c envs ss bs wall stats hok
  simp only [exec_run] at hok ⊢
  cases hcw : collectWorkers ((List.range c.thread_count).map
      (fun t => run c (envs t) (ss t) (bs t))) with
  | none => rw [hcw] at hok; simp at hok
  | some ds =>
    show (mergeAll ds).read_hist.length = (mergeAll ds).read_ops ∧
      (mergeAll ds).write_hist.length = (mergeAll ds).write_ops
    obtain ⟨hlen, hmem⟩ := collectWorkers_some_mem _ _ hcw
    have hread : ∀ x ∈ ds, x.read_hist.length = x.read_ops := by
      intro x hx
      obtain ⟨t, ht, heq⟩ := List.mem_map.mp (hmem x hx)
      exact (run_ok_counts heq).2.1
    have hwrite : ∀ x ∈ ds, x.write_hist.length = x.write_ops := by
      intro x hx
      obtain ⟨t, ht, heq⟩ := List.mem_map.mp (hmem x hx)
      exact (run_ok_counts heq).2.2
    obtain ⟨p1, p2, p3, p4⟩ := foldl_mergeInto_proj ds emptyRunDuration
    simp only [mergeAll, emptyRunDuration] at p1 p2 p3 p4
    simp only [mergeAll, emptyRunDuration, p1, p2, p3, p4]
    constructor
    · simpa using sum_map_congr_eq ds _ _ hread
    · simpa using sum_map_congr_eq ds _ _ hwrite

/-- Concrete pure-read descriptor with a single worker issuing 2
operations. -/
def c9Config : WorkloadConfig := ⟨"c9", 1, 2, 1, 0, 1, 1, 2, 1⟩

/-- All-ok oracle recording 5 microsecond samples. -/
def c9Env : OpEnv := ⟨0, .ok (), .ok (), 5, 1⟩

/-- The Run Result the concrete worker returns. -/
def c9Result : RunDuration := ⟨2, 2, [5, 5], 0, 0, []⟩

/-- Witness for C9 at the concrete worker and the merged stats. -/
theorem c9_witness :
    c9Result.read_hist.length = c9Result.read_ops ∧
    c9Result.write_hist.length = c9Result.write_ops ∧
    ((exec_run c9Config (fun _ _ => c9Env) (fun _ => 0) (fun _ => 0) 1
      WorkloadStats.new).2).run_read_hist_micro_sec.length
      = ((exec_run c9Config (fun _ _ => c9Env) (fun _ => 0) (fun _ => 0) 1
        WorkloadStats.new).2).run_read_ops :=
  ⟨(c9_hist_counts_eq_ops.1 c9Config (fun _ => c9Env) 0 0 c9Result
      (by with_unfolding_all decide)).1,
   (c9_hist_counts_eq_ops.1 c9Config (fun _ => c9Env) 0 0 c9Result
      (by with_unfolding_all decide)).2,
   (c9_hist_counts_eq_ops.2 c9Config (fun _ _ => c9Env) (fun _ => 0)
      (fun _ => 0) 1 WorkloadStats.new (by with_unfolding_all decide)).1⟩

/-- The backend calls the load loop issues over a list of indices, with
the size generator threaded through. -/
def loadCalls (c : WorkloadConfig) : List ℕ → KVSizeGen → List BackendCall
  | [], _ => []
  | i :: rest, sg =>
    (loadIteration c sg i).1 :: loadCalls c rest (loadIteration c sg i).2

/-- When every set call succeeds, the load loop completes and its trace is
exactly the issued calls. -/
theorem loadLoop_all_ok (c : WorkloadConfig)
    (setResults : ℕ → Except String Unit) (setTimes : ℕ → ℚ)
    (hok : ∀ i, setResults i = .ok ()) :
    ∀ (js : List ℕ) (sg : KVSizeGen) (time : ℚ) (calls : List BackendCall),
    (loadLoop c setResults setTimes js sg time calls).1 = .ok () ∧
    (loadLoop c setResults setTimes js sg time calls).2.2
      = calls ++ loadCalls c js sg := by
  intro js
  induction js with
  | nil => intro sg time calls; simp [loadLoop, loadCalls]
  | cons i rest ih =>
    intro sg time calls
    unfold loadLoop loadCalls
    rw [hok i]
    obtain ⟨h1, h2⟩ := ih (loadIteration c sg i).2 (time + setTimes i)
      (calls ++ [(loadIteration c sg i).1])
    exact ⟨h1, by rw [h2]; simp⟩

/-- One call per index in the load trace. -/
theorem loadCalls_length (c : WorkloadConfig) :
    ∀ (js : List ℕ) (sg : KVSizeGen),
    (loadCalls c js sg).length = js.length := by
  intro js
  induction js with
  | nil => intro sg; rfl
  | cons i rest ih => intro sg; simp [loadCalls, ih]

/-- Every call in the load trace is a set call whose key bytes come from a
source reseeded from the index at that position, and whose value bytes
come from the continuation of that same reseeded source. -/
theorem loadCalls_get (c : WorkloadConfig) :
    ∀ (js : List ℕ) (sg : KVSizeGen) (k : ℕ), k < js.length →
    ∃ n, (loadCalls c js sg)[k]?
      = some (.set (fillBytes (seedFromU64 (js.getD k 0)) c.key_size).1
          (fillBytes (fillBytes (seedFromU64 (js.getD k 0)) c.key_size).2
            n).1) := by
  intro js
  induction js with
  | nil => intro sg k hk; simp at hk
  | cons i rest ih =>
    intro sg k hk
    cases k with
    | zero =>
      refine ⟨(sg.get_size).1 + c.value_size_start, ?_⟩
      simp [loadCalls, loadIteration]
    | succ k' =>
      obtain ⟨n, hn⟩ := ih (loadIteration c sg i).2 k' (by simpa using hk)
      refine ⟨n, ?_⟩
      simpa [loadCalls] using hn

/-- C8: with a valid descriptor, a successful init, a nonempty value-size
range and all set calls succeeding, exec_load succeeds, reports load_ops
equal to load_insert_count, and its backend trace is the init call
followed by exactly load_insert_count sequential set calls, where the
k-th set call takes its key bytes (of length key_size) and its value
bytes from the single byte source reseeded deterministically from k (not
from the Zipfian key generator). -/
theorem c8_load_trace (c : WorkloadConfig)
    (setResults : ℕ → Except String Unit) (setTimes : ℕ → ℚ)
    (sizeSeed : ℕ) (stats : WorkloadStats)
    (hval : validate_config c = true)
    (hwidth : c.value_size_start < c.value_size_end)
    (hsets : ∀ i, setResults i = .ok ()) :
    (exec_load c (.ok ()) setResults setTimes sizeSeed stats).1 = .ok () ∧
    ((exec_load c (.ok ()) setResults setTimes sizeSeed stats).2.1).load_ops
      = c.load_phase_insert_count ∧
    (exec_load c (.ok ()) setResults setTimes sizeSeed
      stats).2.2.length = c.load_phase_insert_count + 1 ∧
    (exec_load c (.ok ()) setResults setTimes sizeSeed stats).2.2.head?
      = some .init ∧
    (∀ k, k < c.load_phase_insert_count →
      ∃ n, ((exec_load c (.ok ()) setResults setTimes sizeSeed
          stats).2.2)[k + 1]?
        = some (.set (fillBytes (seedFromU64 k) c.key_size).1
            (fillBytes (fillBytes (seedFromU64 k) c.key_size).2 n).1) ∧
        ((fillBytes (seedFromU64 k) c.key_size).1).length = c.key_size) := by
  have hw : ¬ c.value_size_end - c.value_size_start = 0 := by omega
  have hcs := loadLoop_all_ok c setResults setTimes hsets
    (List.range c.load_phase_insert_count)
    ⟨c.value_size_end - c.value_size_start, seedFromU64 sizeSeed⟩ 0 []
  have hld : load c setResults setTimes sizeSeed
      = loadLoop c setResults setTimes
          (List.range c.load_phase_insert_count)
          ⟨c.value_size_end - c.value_size_start, seedFromU64 sizeSeed⟩
          0 [] := by
    unfold load KVSizeGen.new
    rw [if_neg hw]
  rcases hlp : loadLoop c setResults setTimes
      (List.range c.load_phase_insert_count)
      ⟨c.value_size_end - c.value_size_start, seedFromU64 sizeSeed⟩
      0 [] with ⟨o, t, cs⟩
  rw [hlp] at hcs hld
  obtain ⟨ho, hcs2⟩ := hcs
  simp only at ho hcs2
  subst ho
  simp only [List.nil_append] at hcs2
  have hexec : exec_load c (.ok ()) setResults setTimes sizeSeed stats
      = (.ok (),
         { stats with load_time := t,
                      load_ops := c.load_phase_insert_count },
         .init :: cs) := by
    unfold exec_load
    rw [if_neg (by simp [hval]), hld]
  rw [hexec]
  subst hcs2
  refine ⟨rfl, rfl, ?_, rfl, ?_⟩
  · simp [loadCalls_length]
  · intro k hk
    obtain ⟨n, hn⟩ := loadCalls_get c (List.range c.load_phase_insert_count)
      ⟨c.value_size_end - c.value_size_start, seedFromU64 sizeSeed⟩ k
      (by simpa using hk)
    have hgd : (List.range c.load_phase_insert_count).getD k 0 = k := by
      rw [List.getD_eq_getElem?_getD, List.getElem?_range hk]
      rfl
    rw [hgd] at hn
    exact ⟨n, by simpa using hn, fillBytes_length _ _⟩

/-- Concrete pure-read descriptor loading two keys of size 2 with values
in the range 1 to 3. -/
def c8Config : WorkloadConfig := ⟨"c8", 2, 1, 1, 0, 2, 1, 3, 1⟩

/-- Witness for C8 at the concrete descriptor. -/
theorem c8_witness :
    (exec_load c8Config (.ok ()) (fun _ => .ok ()) (fun _ => 0) 0
      WorkloadStats.new).1 = .ok () ∧
    ((exec_load c8Config (.ok ()) (fun _ => .ok ()) (fun _ => 0) 0
      WorkloadStats.new).2.1).load_ops = c8Config.load_phase_insert_count ∧
    (exec_load c8Config (.ok ()) (fun _ => .ok ()) (fun _ => 0) 0
      WorkloadStats.new).2.2.length = c8Config.load_phase_insert_count + 1 ∧
    (exec_load c8Config (.ok ()) (fun _ => .ok ()) (fun _ => 0) 0
      WorkloadStats.new).2.2.head? = some .init :=
  have h := c8_load_trace c8Config (fun _ => .ok ()) (fun _ => 0) 0
    WorkloadStats.new (by with_unfolding_all decide) (by decide)
    (fun _ => rfl)
  ⟨h.1, h.2.1, h.2.2.1, h.2.2.2.1⟩

end KvBencher
